import Mathlib

/-!
Verification of the paper-hearts blind-relay server against its
natural-language specification.

The definitions below are a shallow embedding of the server code:

* `checkTimestamp`        — the freshness check of `verifyRequest`
                            (src/server/auth.ts, lines 44-51);
* `initiate`, `joinSeq`   — the pairing endpoints
                            (src/server/routes/pairs.ts);
* `createEntry`, `getEntries`, `ackEntries`
                          — the entry endpoints (src/server/routes/entries.ts);
* `uploadTransfer`, `downloadTransfer`
                          — the HTTP bundle-handoff endpoints
                            (src/server/routes/transfer.ts);
* `deleteAccount`         — account erasure (src/server/routes/pairs.ts);
* `raceStep` / `raceRun`  — an interleaving model of two concurrent `join`
                            requests, where the initial read plus pre-checks
                            and the consume-token transaction are each atomic
                            (the transaction is a single SQL statement with
                            a compare-and-set `AND NOT consumed` guard).

Database rows are lists of records mirroring the SQL schema
(`schema.sql`): `users`, `entries`, `relay_tokens`, `pairs`.  The
`day_id` column is a Postgres `DATE`, so inserting a string that does not
denote a real calendar date raises a database error; that coercion is
modelled by `validCalendarDate`.  Times are milliseconds since epoch as
integers, mirroring `Date.now()`.
-/

/-- Row of the `users` table (schema.sql): primary key `public_key`,
foreign key `pair_id`, and the three optional push-subscription columns
added for web push. -/
structure User where
  publicKey : String
  pairId : String
  createdAt : Int
  pushEndpoint : Option String
  pushP256dh : Option String
  pushAuth : Option String
  deriving DecidableEq, Repr

/-- Row of the `entries` table (schema.sql): an opaque encrypted blob
addressed by author, pair and day. -/
structure Entry where
  id : Nat
  authorKey : String
  pairId : String
  dayId : String
  payload : String
  createdAt : Int
  fetchedAt : Option Int
  ackedAt : Option Int
  deriving DecidableEq, Repr

/-- Row of the `relay_tokens` table (schema.sql): a one-shot onboarding
token with primary key `token`. -/
structure RelayToken where
  token : String
  initiatorKey : String
  pairId : String
  expiresAt : Int
  consumed : Bool
  deriving DecidableEq, Repr

/-- The relational store: one list per table. -/
structure Store where
  pairs : List String
  users : List User
  entries : List Entry
  tokens : List RelayToken
  deriving DecidableEq, Repr

/-- Constant MAX_TIMESTAMP_AGE_MS from src/server/auth.ts: five minutes. -/
def MAX_TIMESTAMP_AGE_MS : Int := 5 * 60 * 1000

/-- Constant TOKEN_TTL_MS from src/server/routes/pairs.ts: ten minutes. -/
def TOKEN_TTL_MS : Int := 10 * 60 * 1000

/-- Constant MAX_BLOBS_PER_DAY from src/server/routes/entries.ts. -/
def MAX_BLOBS_PER_DAY : Nat := 2

/-- Constant TTL_MS from src/server/routes/transfer.ts: thirty minutes. -/
def TTL_MS : Int := 30 * 60 * 1000

/-- Timestamp freshness check of `verifyRequest` (src/server/auth.ts lines
44-51).  `parseOk` stands for `new Date(timestamp)` producing a valid
instant; `some 401` is a thrown `AuthError` with that HTTP status.  The
code rejects when `Date.now() - tsDate.getTime() > MAX_TIMESTAMP_AGE_MS`,
a one-sided comparison. -/
def checkTimestamp (parseOk : Bool) (now t : Int) : Option Nat :=
  if !parseOk then some 401
  else if MAX_TIMESTAMP_AGE_MS < now - t then some 401
  else none

/-- Lookup of a relay token row by primary key, as in
`SELECT ... FROM relay_tokens WHERE token = ?`. -/
def findToken (st : Store) (tok : String) : Option RelayToken :=
  st.tokens.find? (fun r => r.token == tok)

/-- Predicate that the `token` primary key is unique in the store, as
enforced by `relay_tokens.token TEXT PRIMARY KEY`. -/
def TokenUnique (st : Store) : Prop :=
  st.tokens.Pairwise (fun a b => a.token ≠ b.token)

/-- Upsert of a user row, as in `INSERT INTO users ... ON CONFLICT
(public_key) DO UPDATE SET pair_id = EXCLUDED.pair_id, push_endpoint =
NULL, push_p256dh = NULL, push_auth = NULL` (src/server/routes/pairs.ts,
used by both initiate and join). -/
def upsertUser (st : Store) (now : Int) (pk pid : String) : Store :=
  if st.users.any (fun u => u.publicKey == pk) then
    { st with users := st.users.map (fun u =>
        if u.publicKey == pk then
          { u with pairId := pid, pushEndpoint := none,
                   pushP256dh := none, pushAuth := none }
        else u) }
  else
    { st with users := st.users ++ [⟨pk, pid, now, none, none, none⟩] }

/-- Compare-and-set consumption of a relay token: `UPDATE relay_tokens SET
consumed = true WHERE token = ? AND NOT consumed RETURNING token`
(src/server/routes/pairs.ts lines 137-141).  Returns the number of rows
the update matched together with the updated store. -/
def casConsume (st : Store) (tok : String) : Nat × Store :=
  let matched := st.tokens.filter (fun r => r.token == tok && !r.consumed)
  (matched.length,
   { st with tokens := st.tokens.map (fun r =>
       if r.token == tok && !r.consumed then { r with consumed := true } else r) })

/-- Outcome of the `join` endpoint, one constructor per return site of
src/server/routes/pairs.ts. -/
inductive JoinResult where
  | invalidKey
  | notFound
  | alreadyConsumed
  | expired
  | sameKey
  | casLost
  | ok (pairId : String) (partnerPublicKey : String)
  deriving DecidableEq, Repr

/-- HTTP status attached to each `join` return site. -/
def joinStatus : JoinResult → Nat
  | .invalidKey => 400
  | .notFound => 404
  | .alreadyConsumed => 410
  | .expired => 410
  | .sameKey => 400
  | .casLost => 410
  | .ok _ _ => 200

/-- Pre-transaction phase of `join` (src/server/routes/pairs.ts lines
82-130): key-format validation, token lookup, consumed and expiry checks,
same-key check.  `keyOk` stands for the sodium base64 decode succeeding
with the Ed25519 length.  Returns the early error response, or the token
row snapshot used by the transaction. -/
def joinRead (st : Store) (now : Int) (pk tok : String) (keyOk : Bool) :
    Except JoinResult RelayToken :=
  if !keyOk then .error .invalidKey
  else
    match findToken st tok with
    | none => .error .notFound
    | some row =>
      if row.consumed then .error .alreadyConsumed
      else if row.expiresAt < now then .error .expired
      else if pk == row.initiatorKey then .error .sameKey
      else .ok row

/-- Transaction phase of `join` (src/server/routes/pairs.ts lines
135-159): the compare-and-set consume, then the follower upsert.  When the
update matches zero rows the transaction returns null and the endpoint
answers 410. -/
def joinTxn (st : Store) (now : Int) (pk tok : String) (snap : RelayToken) :
    JoinResult × Store :=
  let (n, st1) := casConsume st tok
  if n == 0 then (.casLost, st)
  else (.ok snap.pairId snap.initiatorKey, upsertUser st1 now pk snap.pairId)

/-- The `join` endpoint run to completion with no interleaved writer. -/
def joinSeq (st : Store) (now : Int) (pk tok : String) (keyOk : Bool) :
    JoinResult × Store :=
  match joinRead st now pk tok keyOk with
  | .error r => (r, st)
  | .ok snap => joinTxn st now pk tok snap

/-- Outcome of the `initiate` endpoint (src/server/routes/pairs.ts lines
14-70). -/
inductive InitResult where
  | invalidKey
  | created (pairId : String) (relayToken : String)
  deriving DecidableEq, Repr

/-- HTTP status attached to each `initiate` return site. -/
def initStatus : InitResult → Nat
  | .invalidKey => 400
  | .created _ _ => 201

/-- The `initiate` endpoint: key validation, then a transaction inserting
a fresh pair row, upserting the caller, and inserting a fresh relay token
with a ten-minute TTL.  The generated pair id and random token are passed
in as `freshPair` and `freshToken`. -/
def initiate (st : Store) (now : Int) (pk : String) (keyOk : Bool)
    (freshPair freshToken : String) : InitResult × Store :=
  if !keyOk then (.invalidKey, st)
  else
    let st1 := { st with pairs := st.pairs ++ [freshPair] }
    let st2 := upsertUser st1 now pk freshPair
    let st3 := { st2 with tokens := st2.tokens ++
        [⟨freshToken, pk, freshPair, now + TOKEN_TTL_MS, false⟩] }
    (.created freshPair freshToken, st3)

/-- The `deleteAccount` endpoint (src/server/routes/pairs.ts lines
178-197): delete the caller-authored entries, then the caller user row.
Returns the 204 status with the new store. -/
def deleteAccount (st : Store) (pk : String) : Nat × Store :=
  (204, { st with
      entries := st.entries.filter (fun e => e.authorKey != pk),
      users := st.users.filter (fun u => u.publicKey != pk) })

/-- Entry of the in-memory `pending` map of src/server/routes/transfer.ts. -/
structure PendingEntry where
  payload : String
  expiresAt : Int
  deriving DecidableEq, Repr

/-- The process-local `pending` map keyed by pairId. -/
abbrev Pending := List (String × PendingEntry)

/-- Map insertion with replacement, as in JS `pending.set(pairId, v)`. -/
def pendingSet (p : Pending) (pid : String) (v : PendingEntry) : Pending :=
  (pid, v) :: (p.filter (fun kv => kv.fst != pid))

/-- The `uploadTransfer` endpoint body after authentication
(src/server/routes/transfer.ts line 36): store the payload with
`expiresAt = Date.now() + TTL_MS`. -/
def uploadTransfer (p : Pending) (now : Int) (pid payload : String) : Pending :=
  pendingSet p pid ⟨payload, now + TTL_MS⟩

/-- The `downloadTransfer` endpoint body after authentication
(src/server/routes/transfer.ts lines 54-61): if the entry is absent or
`Date.now() > expiresAt`, answer `{payload: null}`; otherwise delete the
entry and return the payload. -/
def downloadTransfer (p : Pending) (now : Int) (pid : String) :
    Option String × Pending :=
  match p.lookup pid with
  | none => (none, p)
  | some e =>
    if e.expiresAt < now then (none, p)
    else (some e.payload, p.filter (fun kv => kv.fst != pid))

/-- DayId grammar check of src/server/routes/entries.ts line 37: the
regular expression for four digits, dash, two digits, dash, two digits,
anchored at both ends. -/
def dayIdGrammar (d : String) : Bool :=
  match d.toList with
  | [y1, y2, y3, y4, h1, m1, m2, h2, d1, d2] =>
    y1.isDigit && y2.isDigit && y3.isDigit && y4.isDigit && h1 == '-' &&
    m1.isDigit && m2.isDigit && h2 == '-' && d1.isDigit && d2.isDigit
  | _ => false

/-- Decimal value of a list of digit characters. -/
def digitsToNat (cs : List Char) : Nat :=
  cs.foldl (fun n c => n * 10 + (c.toNat - 48)) 0

/-- Year field of a grammar-conforming dayId string. -/
def yearOf (d : String) : Nat := digitsToNat (d.toList.take 4)

/-- Month field of a grammar-conforming dayId string. -/
def monthOf (d : String) : Nat := digitsToNat ((d.toList.drop 5).take 2)

/-- Day-of-month field of a grammar-conforming dayId string. -/
def dayOf (d : String) : Nat := digitsToNat (d.toList.drop 8)

/-- Gregorian leap-year rule. -/
def isLeap (y : Nat) : Bool := (y % 4 == 0 && y % 100 != 0) || y % 400 == 0

/-- Number of days in a month of the Gregorian calendar. -/
def daysInMonth (y m : Nat) : Nat :=
  if m == 2 then (if isLeap y then 29 else 28)
  else if m == 4 || m == 6 || m == 9 || m == 11 then 30
  else 31

/-- Postgres coercion of a text parameter into the `day_id DATE` column of
schema.sql: the insert succeeds only when the string denotes a real
calendar date (month 1-12, day within the month, year at least 1). -/
def validCalendarDate (d : String) : Bool :=
  dayIdGrammar d && 1 ≤ yearOf d &&
  1 ≤ monthOf d && monthOf d ≤ 12 &&
  1 ≤ dayOf d && dayOf d ≤ daysInMonth (yearOf d) (monthOf d)

/-- Count used by the rate limit of src/server/routes/entries.ts lines
42-45: `SELECT COUNT(*) FROM entries WHERE author_key = ? AND day_id = ?`. -/
def countByAuthorDay (st : Store) (a d : String) : Nat :=
  (st.entries.filter (fun e => e.authorKey == a && e.dayId == d)).length

/-- Outcome of the `createEntry` endpoint, one constructor per return
site; `dbError` is the insert into the DATE column raising, which the
router of app.ts maps to HTTP 500. -/
inductive CreateResult where
  | missingField
  | badDayId
  | rateLimited
  | dbError
  | stored (id : Nat)
  deriving DecidableEq, Repr

/-- HTTP status attached to each `createEntry` outcome. -/
def createStatus : CreateResult → Nat
  | .missingField => 400
  | .badDayId => 400
  | .rateLimited => 429
  | .dbError => 500
  | .stored _ => 201

/-- The `createEntry` endpoint body after authentication
(src/server/routes/entries.ts lines 24-70): field presence checks, the
dayId grammar check, the per-author per-day rate limit, then the insert.
The fresh row id produced by the database is passed in as `freshId`. -/
def createEntry (st : Store) (now : Int) (authorKey pairId : String)
    (dayId payload : String) (freshId : Nat) : CreateResult × Store :=
  if dayId == "" then (.missingField, st)
  else if payload == "" then (.missingField, st)
  else if !dayIdGrammar dayId then (.badDayId, st)
  else if MAX_BLOBS_PER_DAY ≤ countByAuthorDay st authorKey dayId then
    (.rateLimited, st)
  else if !validCalendarDate dayId then (.dbError, st)
  else
    (.stored freshId,
     { st with entries := st.entries ++
         [⟨freshId, authorKey, pairId, dayId, payload, now, none, none⟩] })

/-- Partner lookup shared by getEntries, ackEntries and pairStatus:
`SELECT public_key FROM users WHERE pair_id = ? AND public_key != ?`,
taking the first row. -/
def partnerOf (st : Store) (pid ck : String) : Option User :=
  (st.users.filter (fun u => u.pairId == pid && u.publicKey != ck)).head?

/-- Selection predicate of the getEntries query
(src/server/routes/entries.ts lines 105-112). -/
def undeliveredPred (pid partnerKey since : String) (e : Entry) : Bool :=
  e.pairId == pid && e.authorKey == partnerKey &&
  decide (since ≤ e.dayId) && e.ackedAt.isNone

/-- Ordering relation of the `ORDER BY day_id ASC` clause. -/
def entryLE (a b : Entry) : Prop := a.dayId ≤ b.dayId

instance : DecidableRel entryLE := fun a b => by
  unfold entryLE
  infer_instance

instance : IsTotal Entry entryLE := ⟨fun a b => le_total a.dayId b.dayId⟩

instance : IsTrans Entry entryLE := ⟨fun _ _ _ h1 h2 => le_trans h1 h2⟩

/-- The `getEntries` endpoint body after authentication
(src/server/routes/entries.ts lines 88-134): resolve the partner, select
the undelivered partner-authored entries since the given day ordered by
day ascending, and mark previously unfetched rows with `fetched_at =
now()`.  Returns the selected rows and the updated store. -/
def getEntries (st : Store) (now : Int) (ck pid : String) (since : String) :
    List Entry × Store :=
  match partnerOf st pid ck with
  | none => ([], st)
  | some partner =>
    let sel := st.entries.filter (undeliveredPred pid partner.publicKey since)
    let sorted := sel.insertionSort entryLE
    let unfetchedIds := (sel.filter (fun e => e.fetchedAt.isNone)).map (fun e => e.id)
    let st1 := { st with entries := st.entries.map (fun e =>
        if unfetchedIds.contains e.id then { e with fetchedAt := some now } else e) }
    (sorted, st1)

/-- Outcome of the `ackEntries` endpoint. -/
inductive AckResult where
  | badRequest
  | noPartner
  | ok (deleted : Nat)
  deriving DecidableEq, Repr

/-- HTTP status attached to each `ackEntries` outcome. -/
def ackStatus : AckResult → Nat
  | .badRequest => 400
  | .noPartner => 400
  | .ok _ => 200

/-- Deletion predicate of the ack query (src/server/routes/entries.ts
lines 175-181): id in the given list, pair of the caller, authored by the
partner. -/
def ackPred (ids : List Nat) (pid partnerKey : String) (e : Entry) : Bool :=
  ids.contains e.id && e.pairId == pid && e.authorKey == partnerKey

/-- The `ackEntries` endpoint body after authentication
(src/server/routes/entries.ts lines 153-185).  `entryIds = none` stands
for a body whose entryIds field is not an array.  Deletes the matching
rows and reports how many were deleted. -/
def ackEntries (st : Store) (ck pid : String) (entryIds : Option (List Nat)) :
    AckResult × Store :=
  match entryIds with
  | none => (.badRequest, st)
  | some ids =>
    if ids.isEmpty then (.badRequest, st)
    else
      match partnerOf st pid ck with
      | none => (.noPartner, st)
      | some partner =>
        let deleted := st.entries.filter (ackPred ids pid partner.publicKey)
        (.ok deleted.length,
         { st with entries :=
             st.entries.filter (fun e => !ackPred ids pid partner.publicKey e) })

/-- Recipient selection of `notifyPartner` (src/server/push.ts): the first
user in the pair other than the author whose push endpoint is set; when
none, the notification is a no-op. -/
def notifyTarget (st : Store) (authorKey pid : String) : Option User :=
  (st.users.filter (fun u =>
      u.pairId == pid && u.publicKey != authorKey && u.pushEndpoint.isSome)).head?

/-! Helper lemmas about the store operations. -/

/-- A row found by `findToken` is a member of the token table. -/
lemma findToken_mem {st : Store} {tok : String} {row : RelayToken}
    (h : findToken st tok = some row) : row ∈ st.tokens :=
  List.mem_of_find?_eq_some h

/-- A row found by `findToken` carries the searched token value. -/
lemma findToken_token {st : Store} {tok : String} {row : RelayToken}
    (h : findToken st tok = some row) : row.token = tok := by
  have hp := List.find?_some h
  simpa using hp

/-- A grammar-conforming dayId is not the empty string. -/
lemma dayIdGrammar_ne_empty {d : String} (h : dayIdGrammar d = true) : d ≠ "" := by
  intro hd
  rw [hd] at h
  exact absurd h (by decide)

/-- A calendar-valid dayId conforms to the grammar. -/
lemma validCalendarDate_grammar {d : String} (h : validCalendarDate d = true) :
    dayIdGrammar d = true := by
  unfold validCalendarDate at h
  simp only [Bool.and_eq_true] at h
  exact h.1.1.1.1.1

/-- The partner returned by `partnerOf` is a member of the users table, is
in the requested pair, and differs from the caller. -/
lemma partnerOf_mem {st : Store} {pid ck : String} {p : User}
    (hp : partnerOf st pid ck = some p) :
    p ∈ st.users ∧ p.pairId = pid ∧ p.publicKey ≠ ck := by
  have hmem : p ∈ st.users.filter (fun u => u.pairId == pid && u.publicKey != ck) := by
    apply List.mem_of_mem_head?
    simp [partnerOf] at hp
    simp [hp]
  have := List.mem_filter.mp hmem
  rcases this with ⟨hm, hpred⟩
  simp only [Bool.and_eq_true, beq_iff_eq, bne_iff_ne, ne_eq] at hpred
  exact ⟨hm, hpred.1, hpred.2⟩

/-- When the token row is present and unconsumed, the compare-and-set
update matches at least one row. -/
lemma casConsume_hit {st : Store} {tok : String} {row : RelayToken}
    (hf : findToken st tok = some row) (hc : row.consumed = false) :
    (casConsume st tok).1 ≠ 0 := by
  have hm := findToken_mem hf
  have ht := findToken_token hf
  have hmem : row ∈ st.tokens.filter (fun r => r.token == tok && !r.consumed) :=
    List.mem_filter.mpr ⟨hm, by simp [ht, hc]⟩
  have hne := List.ne_nil_of_mem hmem
  simp only [casConsume]
  intro h0
  exact hne (List.length_eq_zero.mp h0)

/-- Successful completion of the `join` endpoint under its preconditions:
the token is present, unconsumed, unexpired (strictly: not strictly past),
and the caller is not the initiator. -/
lemma joinSeq_success {st : Store} {now : Int} {pk tok : String} {row : RelayToken}
    (hf : findToken st tok = some row) (hc : row.consumed = false)
    (he : ¬ row.expiresAt < now) (hk : pk ≠ row.initiatorKey) :
    joinSeq st now pk tok true =
      (.ok row.pairId row.initiatorKey,
       upsertUser (casConsume st tok).2 now pk row.pairId) := by
  have hn := casConsume_hit hf hc
  simp [joinSeq, joinRead, joinTxn, hf, hc, he, hk, hn]

/-! Claim C2.  The spec states that a timestamp whose absolute distance
from the server clock exceeds five minutes is rejected with 401 in either
direction.  The code of src/server/auth.ts lines 49-51 compares only
`now - t`, so a timestamp arbitrarily far in the future passes the
freshness check.  The claim is corrected to a one-sided window. -/

/-- Claim C2, counterexample: a timestamp ten minutes in the future has
absolute skew above five minutes, yet the freshness check of
`verifyRequest` accepts it instead of rejecting with 401. -/
theorem clock_skew_future_accepted :
    checkTimestamp true 0 600000 = none ∧
    ((0 : Int) - 600000).natAbs > 300000 := by
  constructor
  · rfl
  · decide

/-- Claim C2 (amended): the freshness window of `verifyRequest` is
one-sided.  A timestamp more than five minutes older than the server
clock is rejected with 401, while any timestamp with
`now - t ≤ 5 minutes` — including timestamps arbitrarily far in the
future — passes the freshness check. -/
theorem timestamp_freshness_one_sided (now tPast tOk : Int)
    (h1 : MAX_TIMESTAMP_AGE_MS < now - tPast)
    (h2 : now - tOk ≤ MAX_TIMESTAMP_AGE_MS) :
    checkTimestamp true now tPast = some 401 ∧
    checkTimestamp true now tOk = none := by
  constructor
  · simp [checkTimestamp, h1]
  · simp [checkTimestamp, not_lt.mpr h2]

/-- Claim C2, witness: the amended theorem applied at a concrete pair of
timestamps, one eleven minutes old and one ten minutes in the future. -/
theorem timestamp_freshness_one_sided_witness :
    checkTimestamp true 660000 0 = some 401 ∧
    checkTimestamp true 0 600000 = none :=
  timestamp_freshness_one_sided 660000 0 600000 (by decide) (by decide)

/-! Claim C5.  Upload rate limit: with two or more stored entries for the
same author and day, the endpoint answers 429 and inserts nothing. -/

/-- Claim C5: when the author already has at least MAX_BLOBS_PER_DAY
entries for the day, `createEntry` answers 429 and leaves the store — in
particular the entry count for that author and day — unchanged. -/
theorem upload_rate_limit (st : Store) (now : Int) (a cp d pay : String) (fid : Nat)
    (hd : d ≠ "") (hpay : pay ≠ "") (hg : dayIdGrammar d = true)
    (hc : MAX_BLOBS_PER_DAY ≤ countByAuthorDay st a d) :
    createEntry st now a cp d pay fid = (.rateLimited, st) ∧
    createStatus (createEntry st now a cp d pay fid).1 = 429 ∧
    countByAuthorDay (createEntry st now a cp d pay fid).2 a d =
      countByAuthorDay st a d := by
  have h : createEntry st now a cp d pay fid = (.rateLimited, st) := by
    simp [createEntry, hd, hpay, hg, hc]
  exact ⟨h, by simp [h, createStatus], by simp [h]⟩

/-- Concrete store for the rate-limit witness: two entries already stored
by user A for the day 2026-02-16. -/
def stRate : Store :=
  ⟨["P"], [⟨"A", "P", 0, none, none, none⟩],
   [⟨1, "A", "P", "2026-02-16", "x", 0, none, none⟩,
    ⟨2, "A", "P", "2026-02-16", "y", 0, none, none⟩], []⟩

/-- Claim C5, witness: the rate-limit theorem applied to a store holding
two prior entries for the author and day. -/
theorem upload_rate_limit_witness :
    createEntry stRate 5 "A" "P" "2026-02-16" "z" 3 = (.rateLimited, stRate) :=
  (upload_rate_limit stRate 5 "A" "P" "2026-02-16" "z" 3
    (by decide) (by decide) (by decide) (by decide)).1

/-! Claim C7.  The spec gives the pending handoff bundle a five-minute
TTL.  The cited store of src/server/routes/transfer.ts uses
`TTL_MS = 30 * 60 * 1000`, so a bundle uploaded through `uploadTransfer`
stays collectable for thirty minutes.  The claim is corrected. -/

/-- Claim C7, counterexample: a bundle uploaded at time 0 is still
delivered by `downloadTransfer` six minutes later, although the claim
says a follower collecting after five minutes receives no bundle. -/
theorem transfer_bundle_delivered_after_five_minutes :
    (downloadTransfer (uploadTransfer [] 0 "P" "BLOB") 360000 "P").1 = some "BLOB" ∧
    (360000 : Int) > 5 * 60 * 1000 := by
  constructor
  · rfl
  · decide

/-- Claim C7 (amended): a pending transfer bundle expires thirty minutes
after the initiator uploads it.  A follower collecting at or before
upload time plus TTL_MS receives the bundle; a follower collecting after
that instant receives `{payload: null}`. -/
theorem transfer_bundle_ttl_thirty_minutes (p : Pending) (now0 t1 t2 : Int)
    (pid payload : String)
    (h1 : t1 ≤ now0 + TTL_MS) (h2 : now0 + TTL_MS < t2) :
    (downloadTransfer (uploadTransfer p now0 pid payload) t1 pid).1 = some payload ∧
    (downloadTransfer (uploadTransfer p now0 pid payload) t2 pid).1 = none := by
  have hl : (uploadTransfer p now0 pid payload).lookup pid =
      some ⟨payload, now0 + TTL_MS⟩ := by
    simp [uploadTransfer, pendingSet, List.lookup]
  constructor
  · simp [downloadTransfer, hl, not_lt.mpr h1]
  · simp [downloadTransfer, hl, h2]

/-- Claim C7, witness: the thirty-minute theorem applied at the exact
expiry instant and one millisecond past it. -/
theorem transfer_bundle_ttl_thirty_minutes_witness :
    (downloadTransfer (uploadTransfer [] 0 "P" "B") 1800000 "P").1 = some "B" ∧
    (downloadTransfer (uploadTransfer [] 0 "P" "B") 1800001 "P").1 = none :=
  transfer_bundle_ttl_thirty_minutes [] 0 1800000 1800001 "P" "B"
    (by decide) (by decide)

/-! Claim C9.  The spec states that a token whose expiresAt equals the
server clock to the millisecond is rejected with 410, join succeeding
only when expiresAt is strictly greater than now.  The code of
src/server/routes/pairs.ts line 122 rejects only when
`new Date(expires_at) < new Date()`, so the boundary instant is accepted.
The claim is corrected. -/

/-- Concrete store for the expiry-boundary claims: one pair, the
initiator A, and an unconsumed token T expiring at instant 1000. -/
def stExp : Store :=
  ⟨["P"], [⟨"A", "P", 0, none, none, none⟩], [],
   [⟨"T", "A", "P", 1000, false⟩]⟩

/-- Claim C9, counterexample: a join presented at exactly the expiry
instant of the token succeeds with 200 instead of being rejected
with 410. -/
theorem join_expiry_boundary_accepted :
    (findToken stExp "T").map RelayToken.expiresAt = some 1000 ∧
    joinStatus (joinSeq stExp 1000 "B" "T" true).1 = 200 := by
  constructor
  · rfl
  · rfl

/-- Claim C9 (amended): the expiry pre-check of `join` is a strict
comparison against the past only.  A token with `expiresAt < now` is
rejected with 410 Expired; a token with `now ≤ expiresAt` — including
exact equality to the millisecond — passes the expiry check and, with the
other preconditions met, the join succeeds with 200. -/
theorem join_expiry_strict_past (st : Store) (now1 now2 : Int)
    (pk tok : String) (row : RelayToken)
    (hf : findToken st tok = some row) (hc : row.consumed = false)
    (hk : pk ≠ row.initiatorKey)
    (h1 : row.expiresAt < now1) (h2 : now2 ≤ row.expiresAt) :
    (joinSeq st now1 pk tok true).1 = .expired ∧
    joinStatus (joinSeq st now1 pk tok true).1 = 410 ∧
    (joinSeq st now2 pk tok true).1 = .ok row.pairId row.initiatorKey ∧
    joinStatus (joinSeq st now2 pk tok true).1 = 200 := by
  have hrej : (joinSeq st now1 pk tok true).1 = .expired := by
    simp [joinSeq, joinRead, hf, hc, h1]
  have hok := joinSeq_success hf hc (not_lt.mpr h2) hk
  exact ⟨hrej, by rw [hrej]; rfl, by rw [hok], by rw [hok]; rfl⟩

/-- Claim C9, witness: the amended theorem applied to the concrete store,
with one join one second after expiry and one join at the exact expiry
instant. -/
theorem join_expiry_strict_past_witness :
    (joinSeq stExp 2000 "B" "T" true).1 = .expired ∧
    joinStatus (joinSeq stExp 2000 "B" "T" true).1 = 410 ∧
    (joinSeq stExp 1000 "B" "T" true).1 = .ok "P" "A" ∧
    joinStatus (joinSeq stExp 1000 "B" "T" true).1 = 200 :=
  join_expiry_strict_past stExp 2000 1000 "B" "T" ⟨"T", "A", "P", 1000, false⟩
    (by decide) rfl (by decide) (by decide) (by decide)

/-! Claim C10.  Frame effect of account deletion: only the entries
authored by the caller and the caller user row are removed; the partner
entries — including undelivered entries addressed to the caller — the
pairs table and the token table are untouched. -/

/-- Claim C10: `deleteAccount` answers 204, keeps every entry not
authored by the caller, removes only caller-authored entries, keeps
every other user row, removes every row of the caller, and leaves the
pairs and relay-token tables unchanged. -/
theorem delete_account_frame (st : Store) (pk : String) :
    (deleteAccount st pk).1 = 204 ∧
    (∀ e ∈ st.entries, e.authorKey ≠ pk → e ∈ (deleteAccount st pk).2.entries) ∧
    (∀ e ∈ (deleteAccount st pk).2.entries, e ∈ st.entries ∧ e.authorKey ≠ pk) ∧
    (∀ u ∈ st.users, u.publicKey ≠ pk → u ∈ (deleteAccount st pk).2.users) ∧
    (∀ u ∈ (deleteAccount st pk).2.users, u.publicKey ≠ pk) ∧
    (deleteAccount st pk).2.pairs = st.pairs ∧
    (deleteAccount st pk).2.tokens = st.tokens := by
  refine ⟨rfl, ?_, ?_, ?_, ?_, rfl, rfl⟩
  · intro e he hne
    exact List.mem_filter.mpr ⟨he, by simp [hne]⟩
  · intro e he
    have := List.mem_filter.mp he
    exact ⟨this.1, by simpa using this.2⟩
  · intro u hu hne
    exact List.mem_filter.mpr ⟨hu, by simp [hne]⟩
  · intro u hu
    have := List.mem_filter.mp hu
    simpa using this.2

/-! Claim C6.  The spec states that every dayId matching the grammar is
accepted and stored with 201 even when it is not a real calendar date.
The grammar check of src/server/routes/entries.ts line 37 indeed passes
such strings, but the `day_id` column of schema.sql has type DATE, so the
insert of a grammar-conforming non-date raises a database error which the
router maps to 500.  The claim is corrected. -/

/-- Concrete store for the dayId claims: one pair with user A and no
entries. -/
def stDay : Store := ⟨["P"], [⟨"A", "P", 0, none, none, none⟩], [], []⟩

/-- Claim C6, counterexample: the dayId 2026-13-01 matches the grammar,
yet the upload answers 500 — not 201 — and stores nothing, because the
DATE column rejects month 13. -/
theorem dayid_invalid_date_not_stored :
    dayIdGrammar "2026-13-01" = true ∧
    createStatus (createEntry stDay 0 "A" "P" "2026-13-01" "cGF5" 1).1 = 500 ∧
    (createEntry stDay 0 "A" "P" "2026-13-01" "cGF5" 1).2 = stDay := by
  refine ⟨by decide, by decide, by decide⟩

/-- Claim C6 (amended): a dayId outside the grammar is rejected with 400
and nothing is stored; a grammar-conforming dayId that denotes a real
calendar date is accepted with 201 and the entry is appended; a
grammar-conforming dayId that is not a real calendar date — such as
2026-13-01 — passes the route validation but fails at the DATE column,
surfacing as 500 with nothing stored. -/
theorem dayid_grammar_and_date_validity (st : Store) (now : Int)
    (a cp pay : String) (fid : Nat) (dBadFmt dOk dBadDate : String)
    (hpay : pay ≠ "")
    (h1 : dayIdGrammar dBadFmt = false)
    (h2v : validCalendarDate dOk = true)
    (h2c : countByAuthorDay st a dOk < MAX_BLOBS_PER_DAY)
    (h3g : dayIdGrammar dBadDate = true)
    (h3v : validCalendarDate dBadDate = false)
    (h3c : countByAuthorDay st a dBadDate < MAX_BLOBS_PER_DAY) :
    createStatus (createEntry st now a cp dBadFmt pay fid).1 = 400 ∧
    (createEntry st now a cp dBadFmt pay fid).2 = st ∧
    (createEntry st now a cp dOk pay fid).1 = .stored fid ∧
    (createEntry st now a cp dOk pay fid).2.entries =
      st.entries ++ [⟨fid, a, cp, dOk, pay, now, none, none⟩] ∧
    createStatus (createEntry st now a cp dBadDate pay fid).1 = 500 ∧
    (createEntry st now a cp dBadDate pay fid).2 = st := by
  have h2g := validCalendarDate_grammar h2v
  have h2ne := dayIdGrammar_ne_empty h2g
  have h3ne := dayIdGrammar_ne_empty h3g
  refine ⟨?_, ?_, ?_, ?_, ?_, ?_⟩
  · by_cases hd : dBadFmt = ""
    · simp [createEntry, hd, createStatus]
    · simp [createEntry, hd, hpay, h1, createStatus]
  · by_cases hd : dBadFmt = ""
    · simp [createEntry, hd]
    · simp [createEntry, hd, hpay, h1]
  · simp [createEntry, h2ne, hpay, h2g, Nat.not_le.mpr h2c, h2v]
  · simp [createEntry, h2ne, hpay, h2g, Nat.not_le.mpr h2c, h2v]
  · simp [createEntry, h3ne, hpay, h3g, Nat.not_le.mpr h3c, h3v, createStatus]
  · simp [createEntry, h3ne, hpay, h3g, Nat.not_le.mpr h3c, h3v]

/-- Claim C6, witness: the amended theorem applied to the concrete store
with the three boundary dayIds of the spec. -/
theorem dayid_grammar_and_date_validity_witness :
    createStatus (createEntry stDay 0 "A" "P" "26-01-01" "cGF5" 1).1 = 400 ∧
    (createEntry stDay 0 "A" "P" "26-01-01" "cGF5" 1).2 = stDay ∧
    (createEntry stDay 0 "A" "P" "2026-02-15" "cGF5" 1).1 = .stored 1 ∧
    (createEntry stDay 0 "A" "P" "2026-02-15" "cGF5" 1).2.entries =
      stDay.entries ++ [⟨1, "A", "P", "2026-02-15", "cGF5", 0, none, none⟩] ∧
    createStatus (createEntry stDay 0 "A" "P" "2026-13-01" "cGF5" 1).1 = 500 ∧
    (createEntry stDay 0 "A" "P" "2026-13-01" "cGF5" 1).2 = stDay :=
  dayid_grammar_and_date_validity stDay 0 "A" "P" "cGF5" 1
    "26-01-01" "2026-02-15" "2026-13-01"
    (by decide) (by decide) (by decide) (by decide) (by decide) (by decide) (by decide)

/-! Claim C3.  Acknowledgement deletes only entries of the caller's pair
that were authored by the partner and whose id was listed; caller-authored
entries are never deleted; the response reports the number deleted. -/

/-- Claim C3: for an ack by a caller with a partner, no caller-authored
entry is deleted whether or not its id is listed; every deleted row
matches id-in-list, caller pair and partner author; the response is
`{deleted: n}` with n the number of matching rows; a list of nonexistent
ids answers 200 with deleted 0; a non-array or empty entryIds answers
400. -/
theorem ack_deletes_only_partner_entries (st : Store) (ck cp : String)
    (l lmiss : List Nat) (p : User)
    (hl : l ≠ []) (hlm : lmiss ≠ [])
    (hp : partnerOf st cp ck = some p)
    (hmiss : ∀ e ∈ st.entries, e.id ∉ lmiss) :
    ackStatus (ackEntries st ck cp none).1 = 400 ∧
    ackStatus (ackEntries st ck cp (some [])).1 = 400 ∧
    (∀ e ∈ st.entries, e.authorKey = ck →
        e ∈ (ackEntries st ck cp (some l)).2.entries) ∧
    (∀ e ∈ st.entries, e ∉ (ackEntries st ck cp (some l)).2.entries →
        e.id ∈ l ∧ e.pairId = cp ∧ e.authorKey = p.publicKey) ∧
    (ackEntries st ck cp (some l)).1 =
      .ok (st.entries.filter (ackPred l cp p.publicKey)).length ∧
    (ackEntries st ck cp (some lmiss)).1 = .ok 0 ∧
    ackStatus (ackEntries st ck cp (some lmiss)).1 = 200 := by
  have hpk := (partnerOf_mem hp).2.2
  have hle : l.isEmpty = false := by simpa [List.isEmpty_iff] using hl
  have hlme : lmiss.isEmpty = false := by simpa [List.isEmpty_iff] using hlm
  have hrun : ackEntries st ck cp (some l) =
      (.ok (st.entries.filter (ackPred l cp p.publicKey)).length,
       { st with entries := st.entries.filter (fun e => !ackPred l cp p.publicKey e) }) := by
    simp [ackEntries, hle, hp]
  have hmrun : (st.entries.filter (ackPred lmiss cp p.publicKey)) = [] := by
    apply List.filter_eq_nil_iff.mpr
    intro e he
    have := hmiss e he
    simp [ackPred, this]
  refine ⟨rfl, rfl, ?_, ?_, ?_, ?_, ?_⟩
  · intro e he hauth
    rw [hrun]
    refine List.mem_filter.mpr ⟨he, ?_⟩
    have : e.authorKey ≠ p.publicKey := by
      rw [hauth]; exact fun h => hpk h.symm
    simp [ackPred, this]
  · intro e he hnot
    rw [hrun] at hnot
    by_cases hpred : ackPred l cp p.publicKey e = true
    · simp only [ackPred, List.contains, Bool.and_eq_true, beq_iff_eq,
        List.elem_iff] at hpred
      exact ⟨hpred.1.1, hpred.1.2, hpred.2⟩
    · exfalso
      rw [Bool.not_eq_true] at hpred
      exact hnot (List.mem_filter.mpr ⟨he, by simp [hpred]⟩)
  · rw [hrun]
  · simp [ackEntries, hlme, hp, hmrun]
  · simp [ackEntries, hlme, hp, hmrun, ackStatus]

/-- Concrete store for the ack witness: users A and B paired in P, one
entry authored by each. -/
def stAck : Store :=
  ⟨["P"],
   [⟨"A", "P", 0, none, none, none⟩, ⟨"B", "P", 0, none, none, none⟩],
   [⟨1, "A", "P", "2026-02-15", "x", 0, none, none⟩,
    ⟨2, "B", "P", "2026-02-15", "y", 0, none, none⟩], []⟩

/-- Claim C3, witness: the ack theorem applied to the concrete store,
with B acking the id list [1, 2] and the nonexistent id list [99]. -/
theorem ack_deletes_only_partner_entries_witness :
    (ackEntries stAck "B" "P" (some [1, 2])).1 =
      .ok (stAck.entries.filter (ackPred [1, 2] "P" "A")).length ∧
    (ackEntries stAck "B" "P" (some [99])).1 = .ok 0 :=
  ⟨(ack_deletes_only_partner_entries stAck "B" "P" [1, 2] [99]
      ⟨"A", "P", 0, none, none, none⟩ (by decide) (by decide) (by decide)
      (by decide)).2.2.2.2.1,
   (ack_deletes_only_partner_entries stAck "B" "P" [1, 2] [99]
      ⟨"A", "P", 0, none, none, none⟩ (by decide) (by decide) (by decide)
      (by decide)).2.2.2.2.2.1⟩

/-! Claim C4.  Fetch-undelivered returns exactly the unacked
partner-authored entries of the pair since the given day, ordered by day
ascending, and never a caller-authored row; with no partner the result is
empty. -/

/-- Claim C4: the rows returned by `getEntries` never include a
caller-authored entry; the returned list is a permutation of exactly the
entries matching the selection predicate (pair of the caller, author the
partner, day at least `since`, not acked) and is sorted by dayId
ascending; a caller without a partner receives the empty list with the
store untouched. -/
theorem fetch_undelivered_partner_only (st stn : Store) (now : Int)
    (ck cp since : String) (p : User)
    (hp : partnerOf st cp ck = some p)
    (hn : partnerOf stn cp ck = none) :
    (∀ e ∈ (getEntries st now ck cp since).1, e.authorKey ≠ ck) ∧
    ((getEntries st now ck cp since).1).Perm
      (st.entries.filter (undeliveredPred cp p.publicKey since)) ∧
    List.Sorted entryLE (getEntries st now ck cp since).1 ∧
    getEntries stn now ck cp since = ([], stn) := by
  have hpk := (partnerOf_mem hp).2.2
  have hfst : (getEntries st now ck cp since).1 =
      (st.entries.filter (undeliveredPred cp p.publicKey since)).insertionSort entryLE := by
    simp [getEntries, hp]
  refine ⟨?_, ?_, ?_, ?_⟩
  · intro e he
    rw [hfst] at he
    have hsel := (List.mem_insertionSort entryLE).mp he
    have hpred := (List.mem_filter.mp hsel).2
    simp only [undeliveredPred, Bool.and_eq_true, beq_iff_eq] at hpred
    intro hck
    exact hpk ((hck ▸ hpred.1.1.2).symm)
  · rw [hfst]
    exact List.perm_insertionSort entryLE _
  · rw [hfst]
    exact List.sorted_insertionSort entryLE _
  · simp [getEntries, hn]

/-- Concrete store for the fetch witness: A and B paired, entries by both
users on two days, one of them already acked. -/
def stFetch : Store :=
  ⟨["P"],
   [⟨"A", "P", 0, none, none, none⟩, ⟨"B", "P", 0, none, none, none⟩],
   [⟨1, "A", "P", "2026-02-16", "x", 0, none, none⟩,
    ⟨2, "B", "P", "2026-02-15", "y", 0, none, none⟩,
    ⟨3, "A", "P", "2026-02-14", "z", 0, none, some 9⟩], []⟩

/-- Store with a lone user L and no partner, for the empty branch of the
fetch claim. -/
def stLone : Store := ⟨["Q"], [⟨"L", "Q", 0, none, none, none⟩], [], []⟩

/-- Claim C4, witness: the fetch theorem applied to the concrete stores,
with B fetching since 1970-01-01. -/
theorem fetch_undelivered_partner_only_witness :
    ((getEntries stFetch 7 "B" "P" "1970-01-01").1).Perm
      (stFetch.entries.filter (undeliveredPred "P" "A" "1970-01-01")) ∧
    getEntries stLone 7 "L" "Q" "1970-01-01" = ([], stLone) :=
  ⟨(fetch_undelivered_partner_only stFetch stLone 7 "B" "P" "1970-01-01"
      ⟨"A", "P", 0, none, none, none⟩ (by decide) (by decide)).2.1,
   (fetch_undelivered_partner_only stFetch stLone 7 "B" "P" "1970-01-01"
      ⟨"A", "P", 0, none, none, none⟩ (by decide) (by decide)).2.2.2⟩

/-! Claim C8.  Re-pairing by an already-registered key upserts rather
than rejects: the user row moves to the new pair and the three
push-subscription columns become NULL, so the notify path no longer
selects that user until a new subscription is stored. -/

/-- Every user row carrying the upserted key ends with the new pair and
cleared push fields, in both the conflict and the fresh-insert branch of
the upsert. -/
lemma upsertUser_key_rows (st : Store) (now : Int) (pk pid : String) :
    ∀ u ∈ (upsertUser st now pk pid).users, u.publicKey = pk →
      u.pairId = pid ∧ u.pushEndpoint = none ∧
      u.pushP256dh = none ∧ u.pushAuth = none := by
  intro u hu hk
  by_cases h : st.users.any (fun x => x.publicKey == pk)
  · rw [upsertUser, if_pos h] at hu
    simp only [List.mem_map] at hu
    obtain ⟨x, hx, hfx⟩ := hu
    by_cases hxk : x.publicKey = pk
    · rw [← hfx]
      simp [hxk]
    · rw [← hfx] at hk
      simp [hxk] at hk
  · rw [upsertUser, if_neg h] at hu
    simp only [List.mem_append, List.mem_singleton] at hu
    rcases hu with hu | hu
    · exfalso
      exact h (List.any_eq_true.mpr ⟨u, hu, by simp [hk]⟩)
    · rw [hu]
      exact ⟨rfl, rfl, rfl, rfl⟩

/-- After the upsert a row carrying the key exists. -/
lemma upsertUser_key_exists (st : Store) (now : Int) (pk pid : String) :
    ∃ u, u ∈ (upsertUser st now pk pid).users ∧ u.publicKey = pk := by
  by_cases h : st.users.any (fun x => x.publicKey == pk)
  · obtain ⟨x, hx, hxk⟩ := List.any_eq_true.mp h
    rw [beq_iff_eq] at hxk
    refine ⟨⟨x.publicKey, pid, x.createdAt, none, none, none⟩, ?_, hxk⟩
    rw [upsertUser, if_pos h]
    have hmm := List.mem_map_of_mem (fun u =>
        if u.publicKey == pk then
          { u with pairId := pid, pushEndpoint := none,
                   pushP256dh := none, pushAuth := none }
        else u) hx
    simpa [hxk] using hmm
  · refine ⟨⟨pk, pid, now, none, none, none⟩, ?_, rfl⟩
    rw [upsertUser, if_neg h]
    simp

/-- When every row of the key has a cleared push endpoint, the notify
recipient selection never picks that key. -/
lemma notifyTarget_skips_cleared {st : Store} {pk : String}
    (h : ∀ u ∈ st.users, u.publicKey = pk → u.pushEndpoint = none) :
    ∀ k q u, notifyTarget st k q = some u → u.publicKey ≠ pk := by
  intro k q u hu hk
  have hm : u ∈ st.users.filter (fun x =>
      x.pairId == q && x.publicKey != k && x.pushEndpoint.isSome) := by
    apply List.mem_of_mem_head?
    simp only [notifyTarget] at hu
    simp [hu]
  have hmf := List.mem_filter.mp hm
  have hsome : u.pushEndpoint.isSome = true := by
    have := hmf.2
    simp only [Bool.and_eq_true] at this
    exact this.2
  rw [h u hmf.1 hk] at hsome
  simp at hsome

/-- Claim C8: an `initiate` (and likewise a successful `join`) by an
already-registered publicKey is answered 201 (200 for join) rather than
rejected; afterwards every row of that key carries the new pairId with
all three push-subscription fields NULL, a row of the key still exists,
and `notifyPartner` never selects that user as recipient until it
re-subscribes. -/
theorem repair_upsert_clears_push (st : Store) (now : Int)
    (pk freshPair freshToken : String) (u0 : User)
    (hreg : u0 ∈ st.users) (hreg2 : u0.publicKey = pk)
    (stJ : Store) (nowJ : Int) (tokJ : String) (rowJ : RelayToken)
    (hfJ : findToken stJ tokJ = some rowJ) (hcJ : rowJ.consumed = false)
    (heJ : ¬ rowJ.expiresAt < nowJ) (hkJ : pk ≠ rowJ.initiatorKey) :
    initStatus (initiate st now pk true freshPair freshToken).1 = 201 ∧
    (∀ u ∈ (initiate st now pk true freshPair freshToken).2.users,
        u.publicKey = pk → u.pairId = freshPair ∧ u.pushEndpoint = none ∧
        u.pushP256dh = none ∧ u.pushAuth = none) ∧
    (∃ u, u ∈ (initiate st now pk true freshPair freshToken).2.users ∧
        u.publicKey = pk) ∧
    (∀ k q u, notifyTarget (initiate st now pk true freshPair freshToken).2 k q =
        some u → u.publicKey ≠ pk) ∧
    joinStatus (joinSeq stJ nowJ pk tokJ true).1 = 200 ∧
    (∀ u ∈ (joinSeq stJ nowJ pk tokJ true).2.users,
        u.publicKey = pk → u.pairId = rowJ.pairId ∧ u.pushEndpoint = none ∧
        u.pushP256dh = none ∧ u.pushAuth = none) ∧
    (∀ k q u, notifyTarget (joinSeq stJ nowJ pk tokJ true).2 k q = some u →
        u.publicKey ≠ pk) := by
  have hIusers : (initiate st now pk true freshPair freshToken).2.users =
      (upsertUser { st with pairs := st.pairs ++ [freshPair] } now pk freshPair).users := by
    simp [initiate, upsertUser]
  have hJ := joinSeq_success hfJ hcJ heJ hkJ
  have hJusers : (joinSeq stJ nowJ pk tokJ true).2.users =
      (upsertUser (casConsume stJ tokJ).2 nowJ pk rowJ.pairId).users := by
    rw [hJ]
  refine ⟨rfl, ?_, ?_, ?_, by rw [hJ]; rfl, ?_, ?_⟩
  · intro u hu hk
    rw [hIusers] at hu
    exact upsertUser_key_rows _ now pk freshPair u hu hk
  · obtain ⟨u, hu, hk⟩ := upsertUser_key_exists
      { st with pairs := st.pairs ++ [freshPair] } now pk freshPair
    exact ⟨u, by rw [hIusers]; exact hu, hk⟩
  · apply notifyTarget_skips_cleared
    intro u hu hk
    rw [hIusers] at hu
    exact (upsertUser_key_rows _ now pk freshPair u hu hk).2.1
  · intro u hu hk
    rw [hJusers] at hu
    exact upsertUser_key_rows _ nowJ pk rowJ.pairId u hu hk
  · apply notifyTarget_skips_cleared
    intro u hu hk
    rw [hJusers] at hu
    exact (upsertUser_key_rows _ nowJ pk rowJ.pairId u hu hk).2.1

/-- Store for the re-pair witness: user A registered in pair P with a
live push subscription, and a second store where A is registered and an
open token of initiator I exists. -/
def stRepair : Store :=
  ⟨["P"], [⟨"A", "P", 0, some "ep", some "p2", some "au"⟩], [], []⟩

/-- Second store for the join half of the re-pair witness. -/
def stRepairJoin : Store :=
  ⟨["Q"],
   [⟨"I", "Q", 0, none, none, none⟩, ⟨"A", "P", 0, some "ep", some "p2", some "au"⟩],
   [], [⟨"T", "I", "Q", 1000, false⟩]⟩

/-- Claim C8, witness: the upsert theorem applied to the concrete stores,
with A re-initiating into a fresh pair and A joining the pair of I. -/
theorem repair_upsert_clears_push_witness :
    initStatus (initiate stRepair 5 "A" true "P2" "T2").1 = 201 ∧
    joinStatus (joinSeq stRepairJoin 500 "A" "T" true).1 = 200 :=
  ⟨(repair_upsert_clears_push stRepair 5 "A" "P2" "T2"
      ⟨"A", "P", 0, some "ep", some "p2", some "au"⟩ (by decide) (by decide)
      stRepairJoin 500 "T" ⟨"T", "I", "Q", 1000, false⟩
      (by decide) (by decide) (by decide) (by decide)).1,
   (repair_upsert_clears_push stRepair 5 "A" "P2" "T2"
      ⟨"A", "P", 0, some "ep", some "p2", some "au"⟩ (by decide) (by decide)
      stRepairJoin 500 "T" ⟨"T", "I", "Q", 1000, false⟩
      (by decide) (by decide) (by decide) (by decide)).2.2.2.2.1⟩

/-! Claim C1.  Single-use token under concurrency.  Each `join` request
performs one atomic read (token lookup plus pre-checks) followed by one
atomic transaction (the compare-and-set consume plus the follower
upsert).  Two concurrent joins on the same token are modelled as two such
threads whose atomic actions interleave in any order. -/

/-- Progress of one `join` request: before its read, between read and
transaction (holding the token-row snapshot), or finished with a
result. -/
inductive Phase where
  | start
  | proceed (snap : RelayToken)
  | done (r : JoinResult)
  deriving DecidableEq, Repr

/-- Shared store plus the progress of the two racing join requests. -/
structure RaceConfig where
  store : Store
  ph0 : Phase
  ph1 : Phase
  deriving DecidableEq, Repr

/-- One atomic action of a join thread against the shared store. -/
def phaseStep (now : Int) (pk tok : String) (st : Store) (ph : Phase) :
    Phase × Store :=
  match ph with
  | .start =>
    match joinRead st now pk tok true with
    | .error r => (.done r, st)
    | .ok snap => (.proceed snap, st)
  | .proceed snap =>
    let (r, st1) := joinTxn st now pk tok snap
    (.done r, st1)
  | .done r => (.done r, st)

/-- Scheduler step: run one atomic action of thread 0 or thread 1. -/
def raceStep (now : Int) (pk0 pk1 tok : String) (c : RaceConfig) (i : Bool) :
    RaceConfig :=
  if i then
    let (ph, st1) := phaseStep now pk1 tok c.store c.ph1
    ⟨st1, c.ph0, ph⟩
  else
    let (ph, st1) := phaseStep now pk0 tok c.store c.ph0
    ⟨st1, ph, c.ph1⟩

/-- Run the two racing joins under an arbitrary interleaving. -/
def raceRun (now : Int) (pk0 pk1 tok : String) (c : RaceConfig)
    (sched : List Bool) : RaceConfig :=
  sched.foldl (raceStep now pk0 pk1 tok) c

/-- The token row after its one consumption. -/
def consumedRow (row : RelayToken) : RelayToken := { row with consumed := true }

/-- Thread state before the token is consumed: not yet read, or holding
the unconsumed snapshot. -/
def PhasePre (row : RelayToken) (ph : Phase) : Prop :=
  ph = .start ∨ ph = .proceed row

/-- Thread state of the losing side after the token is consumed: still
before its read, still holding the stale snapshot, or finished with one
of the two 410 outcomes. -/
def PhaseLost (row : RelayToken) (ph : Phase) : Prop :=
  PhasePre row ph ∨ ph = .done .alreadyConsumed ∨ ph = .done .casLost

/-- Invariant of the race: either the token is still unconsumed and both
threads are before their transaction, or the token is consumed, exactly
one thread finished with the 200 result, and the other is in a losing
state. -/
def RaceInv (tok : String) (row : RelayToken) (c : RaceConfig) : Prop :=
  TokenUnique c.store ∧
  ((findToken c.store tok = some row ∧ PhasePre row c.ph0 ∧ PhasePre row c.ph1) ∨
   (findToken c.store tok = some (consumedRow row) ∧
     ((c.ph0 = .done (.ok row.pairId row.initiatorKey) ∧ PhaseLost row c.ph1) ∨
      (c.ph1 = .done (.ok row.pairId row.initiatorKey) ∧ PhaseLost row c.ph0))))

/-- Two rows of a token-unique list with the same token are equal. -/
lemma unique_token_eq {l : List RelayToken}
    (hu : l.Pairwise (fun a b => a.token ≠ b.token))
    {r row : RelayToken} (hr : r ∈ l) (hrow : row ∈ l)
    (ht : r.token = row.token) : r = row := by
  induction l with
  | nil => cases hr
  | cons a l ih =>
    have hpc := List.pairwise_cons.mp hu
    rcases List.mem_cons.mp hr with rfl | hr2
    · rcases List.mem_cons.mp hrow with rfl | hrow2
      · rfl
      · exact absurd ht (hpc.1 row hrow2)
    · rcases List.mem_cons.mp hrow with rfl | hrow2
      · exact absurd ht.symm (hpc.1 r hr2)
      · exact ih hpc.2 hr2 hrow2

/-- When the unique row of the token is already consumed, the
compare-and-set update matches zero rows. -/
lemma casConsume_miss {st : Store} {tok : String} {row : RelayToken}
    (hu : TokenUnique st) (hf : findToken st tok = some row)
    (hc : row.consumed = true) : (casConsume st tok).1 = 0 := by
  have hm := findToken_mem hf
  have ht := findToken_token hf
  simp only [casConsume]
  rw [List.length_eq_zero, List.filter_eq_nil_iff]
  intro r hr hpred
  simp only [Bool.and_eq_true, beq_iff_eq, Bool.not_eq_true'] at hpred
  have hreq : r = row := unique_token_eq hu hr hm (hpred.1.trans ht.symm)
  rw [hreq] at hpred
  rw [hc] at hpred
  exact absurd hpred.2 (by decide)

/-- The consuming update preserves every token value, hence primary-key
uniqueness. -/
lemma tokenUnique_casConsume (st : Store) (tok : String) (hu : TokenUnique st) :
    TokenUnique (casConsume st tok).2 := by
  unfold TokenUnique casConsume at *
  rw [List.pairwise_map]
  refine hu.imp ?_
  intro a b hab
  by_cases hca : (a.token == tok && !a.consumed) = true <;>
    by_cases hcb : (b.token == tok && !b.consumed) = true <;>
      simpa [hca, hcb] using hab

/-- Effect of the consuming update on the looked-up row. -/
lemma find?_map_consume (tok : String) (l : List RelayToken) (row : RelayToken)
    (h : l.find? (fun r => r.token == tok) = some row) :
    (l.map (fun r => if r.token == tok && !r.consumed then
        { r with consumed := true } else r)).find? (fun r => r.token == tok) =
      some (if row.consumed then row else { row with consumed := true }) := by
  induction l with
  | nil => simp at h
  | cons a l ih =>
    by_cases ha : (a.token == tok) = true
    · rw [List.find?_cons_of_pos (p := fun r : RelayToken => r.token == tok) _ ha] at h
      injection h with h
      subst h
      have htok : ((if a.token == tok && !a.consumed then
          { a with consumed := true } else a).token == tok) = true := by
        cases hca : a.consumed <;> simp [ha, hca]
      rw [List.map_cons,
        List.find?_cons_of_pos (p := fun r : RelayToken => r.token == tok) _ htok]
      cases hca : a.consumed <;> simp [ha, hca]
    · rw [List.find?_cons_of_neg (p := fun r : RelayToken => r.token == tok) _ ha] at h
      have htok : ((if a.token == tok && !a.consumed then
          { a with consumed := true } else a).token == tok) = false := by
        cases hca : a.consumed <;> simp [ha, hca]
      rw [List.map_cons, List.find?_cons_of_neg (p := fun r : RelayToken => r.token == tok) _
        (by rw [Bool.not_eq_true]; exact htok)]
      exact ih h

/-- Store-level version of the previous lemma. -/
lemma findToken_casConsume {st : Store} {tok : String} {row : RelayToken}
    (hf : findToken st tok = some row) :
    findToken (casConsume st tok).2 tok =
      some (if row.consumed then row else { row with consumed := true }) := by
  simpa [findToken, casConsume] using find?_map_consume tok st.tokens row hf

/-- The user upsert leaves the token table untouched. -/
lemma upsertUser_tokens (st : Store) (now : Int) (pk pid : String) :
    (upsertUser st now pk pid).tokens = st.tokens := by
  rw [upsertUser]
  split <;> rfl

/-- Token lookup is unaffected by the user upsert. -/
lemma findToken_upsertUser (st : Store) (now : Int) (pk pid tok : String) :
    findToken (upsertUser st now pk pid) tok = findToken st tok := by
  simp [findToken, upsertUser_tokens]

/-- Token uniqueness is unaffected by the user upsert. -/
lemma tokenUnique_upsertUser (st : Store) (now : Int) (pk pid : String)
    (hu : TokenUnique st) : TokenUnique (upsertUser st now pk pid) := by
  unfold TokenUnique
  rw [upsertUser_tokens]
  exact hu

/-- A read before consumption passes the pre-checks and snapshots the
row. -/
lemma phaseStep_read_pre {now : Int} {pk tok : String} {row : RelayToken}
    {st : Store} (hf : findToken st tok = some row) (hc : row.consumed = false)
    (he : ¬ row.expiresAt < now) (hk : pk ≠ row.initiatorKey) :
    phaseStep now pk tok st .start = (.proceed row, st) := by
  simp [phaseStep, joinRead, hf, hc, he, hk]

/-- A transaction run while the token is still unconsumed wins the
compare-and-set and registers the follower. -/
lemma phaseStep_cas_pre {now : Int} {pk tok : String} {row : RelayToken}
    {st : Store} (hf : findToken st tok = some row) (hc : row.consumed = false) :
    phaseStep now pk tok st (.proceed row) =
      (.done (.ok row.pairId row.initiatorKey),
       upsertUser (casConsume st tok).2 now pk row.pairId) := by
  have hn := casConsume_hit hf hc
  simp [phaseStep, joinTxn, hn]

/-- A read after consumption fails the pre-check with the 410 outcome. -/
lemma phaseStep_read_post {now : Int} {pk tok : String} {row1 : RelayToken}
    {st : Store} (hf : findToken st tok = some row1) (hc : row1.consumed = true) :
    phaseStep now pk tok st .start = (.done .alreadyConsumed, st) := by
  simp [phaseStep, joinRead, hf, hc]

/-- A transaction run after consumption loses the compare-and-set. -/
lemma phaseStep_cas_post {now : Int} {pk tok : String} {row1 : RelayToken}
    {st : Store} (snap : RelayToken) (hu : TokenUnique st)
    (hf : findToken st tok = some row1) (hc : row1.consumed = true) :
    phaseStep now pk tok st (.proceed snap) = (.done .casLost, st) := by
  have hn := casConsume_miss hu hf hc
  simp [phaseStep, joinTxn, hn]

/-- Store reached by the winning transaction. -/
def winStore (st : Store) (now : Int) (pk tok : String) (row : RelayToken) :
    Store :=
  upsertUser (casConsume st tok).2 now pk row.pairId

/-- The winning transaction leaves the consumed row in place and keeps
the token table unique. -/
lemma winStore_facts {st : Store} {tok : String} {row : RelayToken}
    (now : Int) (pk : String) (hu : TokenUnique st)
    (hf : findToken st tok = some row) (hc : row.consumed = false) :
    findToken (winStore st now pk tok row) tok = some (consumedRow row) ∧
    TokenUnique (winStore st now pk tok row) := by
  constructor
  · rw [winStore, findToken_upsertUser, findToken_casConsume hf]
    simp [hc, consumedRow]
  · exact tokenUnique_upsertUser _ _ _ _ (tokenUnique_casConsume _ _ hu)

/-- Preservation of the race invariant by one scheduler step. -/
lemma raceInv_step {now : Int} {pk0 pk1 tok : String} {row : RelayToken}
    (hc : row.consumed = false) (he : ¬ row.expiresAt < now)
    (h0 : pk0 ≠ row.initiatorKey) (h1 : pk1 ≠ row.initiatorKey)
    {c : RaceConfig} (hinv : RaceInv tok row c) (i : Bool) :
    RaceInv tok row (raceStep now pk0 pk1 tok c i) := by
  obtain ⟨hu, hbr⟩ := hinv
  have hcr : (consumedRow row).consumed = true := rfl
  cases i
  · -- thread 0 acts
    rcases hbr with ⟨hf, hp0, hp1⟩ | ⟨hf, hwin⟩
    · rcases hp0 with h | h
      · have hstep : raceStep now pk0 pk1 tok c false = ⟨c.store, .proceed row, c.ph1⟩ := by
          simp [raceStep, h, phaseStep_read_pre hf hc he h0]
        rw [hstep]
        exact ⟨hu, Or.inl ⟨hf, Or.inr rfl, hp1⟩⟩
      · have hstep : raceStep now pk0 pk1 tok c false =
            ⟨winStore c.store now pk0 tok row,
             .done (.ok row.pairId row.initiatorKey), c.ph1⟩ := by
          simp [raceStep, h, phaseStep_cas_pre hf hc, winStore]
        rw [hstep]
        obtain ⟨hw1, hw2⟩ := winStore_facts now pk0 hu hf hc
        exact ⟨hw2, Or.inr ⟨hw1, Or.inl ⟨rfl, Or.inl hp1⟩⟩⟩
    · rcases hwin with ⟨hw0, hl1⟩ | ⟨hw1, hl0⟩
      · have hstep : raceStep now pk0 pk1 tok c false =
            ⟨c.store, .done (.ok row.pairId row.initiatorKey), c.ph1⟩ := by
          simp [raceStep, hw0, phaseStep]
        rw [hstep]
        exact ⟨hu, Or.inr ⟨hf, Or.inl ⟨rfl, hl1⟩⟩⟩
      · rcases hl0 with (h | h) | h | h
        · have hstep : raceStep now pk0 pk1 tok c false =
              ⟨c.store, .done .alreadyConsumed, c.ph1⟩ := by
            simp [raceStep, h, phaseStep_read_post hf hcr]
          rw [hstep]
          exact ⟨hu, Or.inr ⟨hf, Or.inr ⟨hw1, Or.inr (Or.inl rfl)⟩⟩⟩
        · have hstep : raceStep now pk0 pk1 tok c false =
              ⟨c.store, .done .casLost, c.ph1⟩ := by
            simp [raceStep, h, phaseStep_cas_post row hu hf hcr]
          rw [hstep]
          exact ⟨hu, Or.inr ⟨hf, Or.inr ⟨hw1, Or.inr (Or.inr rfl)⟩⟩⟩
        · have hstep : raceStep now pk0 pk1 tok c false =
              ⟨c.store, .done .alreadyConsumed, c.ph1⟩ := by
            simp [raceStep, h, phaseStep]
          rw [hstep]
          exact ⟨hu, Or.inr ⟨hf, Or.inr ⟨hw1, Or.inr (Or.inl rfl)⟩⟩⟩
        · have hstep : raceStep now pk0 pk1 tok c false =
              ⟨c.store, .done .casLost, c.ph1⟩ := by
            simp [raceStep, h, phaseStep]
          rw [hstep]
          exact ⟨hu, Or.inr ⟨hf, Or.inr ⟨hw1, Or.inr (Or.inr rfl)⟩⟩⟩
  · -- thread 1 acts
    rcases hbr with ⟨hf, hp0, hp1⟩ | ⟨hf, hwin⟩
    · rcases hp1 with h | h
      · have hstep : raceStep now pk0 pk1 tok c true = ⟨c.store, c.ph0, .proceed row⟩ := by
          simp [raceStep, h, phaseStep_read_pre hf hc he h1]
        rw [hstep]
        exact ⟨hu, Or.inl ⟨hf, hp0, Or.inr rfl⟩⟩
      · have hstep : raceStep now pk0 pk1 tok c true =
            ⟨winStore c.store now pk1 tok row, c.ph0,
             .done (.ok row.pairId row.initiatorKey)⟩ := by
          simp [raceStep, h, phaseStep_cas_pre hf hc, winStore]
        rw [hstep]
        obtain ⟨hw1, hw2⟩ := winStore_facts now pk1 hu hf hc
        exact ⟨hw2, Or.inr ⟨hw1, Or.inr ⟨rfl, Or.inl hp0⟩⟩⟩
    · rcases hwin with ⟨hw0, hl1⟩ | ⟨hw1, hl0⟩
      · rcases hl1 with (h | h) | h | h
        · have hstep : raceStep now pk0 pk1 tok c true =
              ⟨c.store, c.ph0, .done .alreadyConsumed⟩ := by
            simp [raceStep, h, phaseStep_read_post hf hcr]
          rw [hstep]
          exact ⟨hu, Or.inr ⟨hf, Or.inl ⟨hw0, Or.inr (Or.inl rfl)⟩⟩⟩
        · have hstep : raceStep now pk0 pk1 tok c true =
              ⟨c.store, c.ph0, .done .casLost⟩ := by
            simp [raceStep, h, phaseStep_cas_post row hu hf hcr]
          rw [hstep]
          exact ⟨hu, Or.inr ⟨hf, Or.inl ⟨hw0, Or.inr (Or.inr rfl)⟩⟩⟩
        · have hstep : raceStep now pk0 pk1 tok c true =
              ⟨c.store, c.ph0, .done .alreadyConsumed⟩ := by
            simp [raceStep, h, phaseStep]
          rw [hstep]
          exact ⟨hu, Or.inr ⟨hf, Or.inl ⟨hw0, Or.inr (Or.inl rfl)⟩⟩⟩
        · have hstep : raceStep now pk0 pk1 tok c true =
              ⟨c.store, c.ph0, .done .casLost⟩ := by
            simp [raceStep, h, phaseStep]
          rw [hstep]
          exact ⟨hu, Or.inr ⟨hf, Or.inl ⟨hw0, Or.inr (Or.inr rfl)⟩⟩⟩
      · have hstep : raceStep now pk0 pk1 tok c true =
            ⟨c.store, c.ph0, .done (.ok row.pairId row.initiatorKey)⟩ := by
          simp [raceStep, hw1, phaseStep]
        rw [hstep]
        exact ⟨hu, Or.inr ⟨hf, Or.inr ⟨rfl, hl0⟩⟩⟩

/-- The race invariant holds after any interleaving. -/
lemma raceInv_run {now : Int} {pk0 pk1 tok : String} {row : RelayToken}
    (hc : row.consumed = false) (he : ¬ row.expiresAt < now)
    (h0 : pk0 ≠ row.initiatorKey) (h1 : pk1 ≠ row.initiatorKey)
    (sched : List Bool) (c : RaceConfig) (hinv : RaceInv tok row c) :
    RaceInv tok row (raceRun now pk0 pk1 tok c sched) := by
  induction sched generalizing c with
  | nil => exact hinv
  | cons i s ih => exact ih _ (raceInv_step hc he h0 h1 hinv i)

/-- A finished thread in a losing state carries a 410 result. -/
lemma phaseLost_done_status {row : RelayToken} {r : JoinResult}
    (h : PhaseLost row (.done r)) : joinStatus r = 410 := by
  rcases h with (h | h) | h | h
  · simp at h
  · simp at h
  · injection h with h
    rw [h]
    rfl
  · injection h with h
    rw [h]
    rfl

/-- Claim C1: under any interleaving of two concurrent joins presenting
the same valid, unconsumed, unexpired token, once both requests finish
exactly one receives 200 and the other 410; the token row has moved
consumed false to true (and the one winning transaction is the only point
where it flips); and every subsequent join presenting the same token is
answered 410. -/
theorem join_token_single_use (st : Store) (now : Int) (pk0 pk1 tok : String)
    (row : RelayToken) (sched : List Bool) (r0 r1 : JoinResult)
    (hu : TokenUnique st)
    (hf : findToken st tok = some row)
    (hc : row.consumed = false)
    (he : ¬ row.expiresAt < now)
    (h0 : pk0 ≠ row.initiatorKey)
    (h1 : pk1 ≠ row.initiatorKey)
    (hr0 : (raceRun now pk0 pk1 tok ⟨st, .start, .start⟩ sched).ph0 = .done r0)
    (hr1 : (raceRun now pk0 pk1 tok ⟨st, .start, .start⟩ sched).ph1 = .done r1) :
    ((joinStatus r0 = 200 ∧ joinStatus r1 = 410) ∨
     (joinStatus r0 = 410 ∧ joinStatus r1 = 200)) ∧
    findToken (raceRun now pk0 pk1 tok ⟨st, .start, .start⟩ sched).store tok =
      some (consumedRow row) ∧
    (∀ pk2 now2, joinStatus (joinSeq (raceRun now pk0 pk1 tok
        ⟨st, .start, .start⟩ sched).store now2 pk2 tok true).1 = 410) := by
  have hinv := raceInv_run hc he h0 h1 sched ⟨st, .start, .start⟩
    ⟨hu, Or.inl ⟨hf, Or.inl rfl, Or.inl rfl⟩⟩
  obtain ⟨hufin, hbr⟩ := hinv
  rcases hbr with ⟨_, hp0, _⟩ | ⟨hffin, hwin⟩
  · exfalso
    rw [hr0] at hp0
    rcases hp0 with h | h <;> simp at h
  · have h410 : ∀ pk2 now2, joinStatus (joinSeq (raceRun now pk0 pk1 tok
        ⟨st, .start, .start⟩ sched).store now2 pk2 tok true).1 = 410 := by
      intro pk2 now2
      simp [joinSeq, joinRead, hffin, consumedRow, joinStatus]
    refine ⟨?_, hffin, h410⟩
    rcases hwin with ⟨hw0, hl1⟩ | ⟨hw1, hl0⟩
    · left
      constructor
      · have h := hr0.symm.trans hw0
        injection h with h
        rw [h]
        rfl
      · rw [hr1] at hl1
        exact phaseLost_done_status hl1
    · right
      constructor
      · rw [hr0] at hl0
        exact phaseLost_done_status hl0
      · have h := hr1.symm.trans hw1
        injection h with h
        rw [h]
        rfl

/-- Claim C1, witness: the race theorem applied to the concrete store of
one open token, with thread B running read and transaction first and
thread C reading afterwards. -/
theorem join_token_single_use_witness :
    (joinStatus (.ok "P" "A") = 200 ∧ joinStatus .alreadyConsumed = 410) ∨
    (joinStatus (.ok "P" "A") = 410 ∧ joinStatus .alreadyConsumed = 200) :=
  (join_token_single_use stExp 500 "B" "C" "T" ⟨"T", "A", "P", 1000, false⟩
    [false, false, true] (.ok "P" "A") .alreadyConsumed
    (by simp [TokenUnique, stExp]) (by decide) (by decide) (by decide)
    (by decide) (by decide) (by decide) (by decide)).1
